import Mathlib

/-! Verification development.
Verification of the Longchain-MCP frontend (src/llm-frontend) against its
specification.

The stream consumer, conversation store and file-upload validation of the
React frontend are embedded shallowly: strings are modelled as `List Char`,
the fetch/stream machinery is modelled by an explicit state type and a
per-chunk step function translated line by line from `handleStream` in
`App.jsx`, and the file validation/upload loop is translated from
`FileUpload.jsx`.  Network interaction is abstracted by outcome parameters
(the server's behaviour is out of scope of the repository).
-/

namespace Frontend

/-- The character `\x7b` (left curly brace). -/
def lbrace : Char := Char.ofNat 123

/-- The character `\x7d` (right curly brace). -/
def rbrace : Char := Char.ofNat 125

/-- The literal opening marker tag `[TOKEN_USAGE]` from `App.jsx`. -/
def openTag : List Char := "[TOKEN_USAGE]".toList

/-- The literal closing marker tag `[/TOKEN_USAGE]` from `App.jsx`. -/
def closeTag : List Char := "[/TOKEN_USAGE]".toList

/-- JavaScript `String.prototype.includes`: does `hay` contain `pat` as a
contiguous substring? -/
def includesSub (hay pat : List Char) : Bool :=
  match hay with
  | [] => pat.isEmpty
  | c :: rest => pat.isPrefixOf (c :: rest) || includesSub rest pat

/-- Lazy matching of the regex fragment `.*?})\[\/TOKEN_USAGE\]` (the tail of
the capture in `/\[TOKEN_USAGE\]({.*?})\[\/TOKEN_USAGE\]/`): starting after
the opening `\x7b`, consume the shortest run of non-newline characters that
is followed by `\x7d` and then the closing tag.  Returns the run (the JSON
body without braces) and the remainder after the closing tag. -/
def lazyBrace : List Char → Option (List Char × List Char)
  | [] => none
  | c :: rest =>
    if (rbrace :: closeTag).isPrefixOf (c :: rest) then
      some ([], (c :: rest).drop (1 + closeTag.length))
    else if c = '\n' then none
    else
      match lazyBrace rest with
      | some (body, r) => some (c :: body, r)
      | none => none

/-- JavaScript `rawBuffer.match(/\[TOKEN_USAGE\]({.*?})\[\/TOKEN_USAGE\]/)`,
returning the first capture group (the `\x7b...\x7d` JSON text) of the
leftmost match, or `none` when the regex does not match. -/
def tokenMatch : List Char → Option (List Char)
  | [] => none
  | c :: rest =>
    if (openTag ++ [lbrace]).isPrefixOf (c :: rest) then
      match lazyBrace ((c :: rest).drop (openTag.length + 1)) with
      | some (body, _) => some (lbrace :: (body ++ [rbrace]))
      | none => tokenMatch rest
    else tokenMatch rest

/-- Lazy matching of `.*?\[\/TOKEN_USAGE\]`: consume the shortest run of
non-newline characters followed by the closing tag, returning the remainder
after the closing tag. -/
def lazyClose : List Char → Option (List Char)
  | [] => none
  | c :: rest =>
    if closeTag.isPrefixOf (c :: rest) then some ((c :: rest).drop closeTag.length)
    else if c = '\n' then none
    else lazyClose rest

/-- Fuel-indexed worker for `stripAll`; the fuel is an upper bound on the
number of scanning steps (each step consumes at least one character). -/
def stripGo : Nat → List Char → List Char
  | 0, l => l
  | _ + 1, [] => []
  | fuel + 1, c :: rest =>
    if openTag.isPrefixOf (c :: rest) then
      match lazyClose ((c :: rest).drop openTag.length) with
      | some r => stripGo fuel r
      | none => c :: stripGo fuel rest
    else c :: stripGo fuel rest

/-- JavaScript `rawBuffer.replace(/\[TOKEN_USAGE\].*?\[\/TOKEN_USAGE\]/g, '')`:
remove every (leftmost, non-overlapping, lazily matched) marker occurrence. -/
def stripAll (l : List Char) : List Char := stripGo l.length l

/-- The token-usage record carried by the marker JSON
(`tokenData.input_tokens` and friends in `App.jsx`). -/
structure Usage where
  input_tokens : Nat
  output_tokens : Nat
  total_tokens : Nat
deriving DecidableEq, Repr

/-- Consume a literal prefix, or fail. -/
def expects (pat l : List Char) : Option (List Char) :=
  if pat.isPrefixOf l then some (l.drop pat.length) else none

/-- Consume a non-empty digit run as a decimal number. -/
def parseNatPart (l : List Char) : Option (Nat × List Char) :=
  let digits := l.takeWhile Char.isDigit
  if digits.isEmpty then none
  else some (digits.foldl (fun a c => a * 10 + (c.toNat - 48)) 0, l.dropWhile Char.isDigit)

/-- Model of `JSON.parse(tokenMatch[1])` followed by reading the three token fields,
restricted to the marker payload schema the spec's interface section fixes:
`\x7b"input_tokens":N,"output_tokens":N,"total_tokens":N\x7d`.  Any payload
not of this exact shape fails to parse (models the thrown `SyntaxError`). -/
def parseUsage (l : List Char) : Option Usage :=
  match expects [lbrace] l with
  | none => none
  | some l1 =>
    match expects "\"input_tokens\":".toList l1 with
    | none => none
    | some l2 =>
      match parseNatPart l2 with
      | none => none
      | some (a, l3) =>
        match expects (',' :: "\"output_tokens\":".toList) l3 with
        | none => none
        | some l4 =>
          match parseNatPart l4 with
          | none => none
          | some (b, l5) =>
            match expects (',' :: "\"total_tokens\":".toList) l5 with
            | none => none
            | some l6 =>
              match parseNatPart l6 with
              | none => none
              | some (c, l7) =>
                match expects [rbrace] l7 with
                | none => none
                | some l8 => if l8.isEmpty then some ⟨a, b, c⟩ else none

/-- The running totals `tokenStats` of `App.jsx`. -/
structure TokenStats where
  total_input : Nat
  total_output : Nat
  total_tokens : Nat
deriving DecidableEq, Repr

/-- The mutable state of one run of the `while (!done)` loop in
`handleStream` (`App.jsx` lines 62-126), together with the pieces of React
state it mutates: `rawBuffer` and `fullResponse` are the local variables of
the loop, `tokenUsage` is the target message's usage field and `stats` the
application-level running totals. -/
structure StreamState where
  rawBuffer : List Char
  fullResponse : List Char
  tokenUsage : Option Usage
  stats : TokenStats
deriving DecidableEq, Repr

/-- One iteration of the read loop of `handleStream` for a decoded chunk
(`App.jsx` lines 69-125): append the chunk to `rawBuffer`; if the buffer
matches the complete-marker regex, try to `JSON.parse` the capture and on
success record the usage, add it to the running totals and strip every
marker occurrence from the buffer (on parse failure the error is only
logged and the buffer is left as is); finally, if the buffer is non-empty
and does not contain the opening tag, flush it character by character into
the visible text, otherwise retain it for the next chunk. -/
def processChunk (s : StreamState) (chunk : List Char) : StreamState :=
  let rb0 := s.rawBuffer ++ chunk
  let s1 :=
    match tokenMatch rb0 with
    | none => { s with rawBuffer := rb0 }
    | some payload =>
      match parseUsage payload with
      | none => { s with rawBuffer := rb0 }
      | some u =>
        { rawBuffer := stripAll rb0
          fullResponse := s.fullResponse
          tokenUsage := some u
          stats :=
            { total_input := s.stats.total_input + u.input_tokens
              total_output := s.stats.total_output + u.output_tokens
              total_tokens := s.stats.total_tokens + u.total_tokens } }
  if !s1.rawBuffer.isEmpty && !includesSub s1.rawBuffer openTag then
    { s1 with rawBuffer := [], fullResponse := s1.fullResponse ++ s1.rawBuffer }
  else s1

/-- The whole read loop: fold `processChunk` over the list of decoded
chunks delivered by the reader. -/
def runStream (chunks : List (List Char)) (s : StreamState) : StreamState :=
  chunks.foldl processChunk s

/-- The stream state at the top of `handleStream`'s `try` block: empty
buffer, empty visible text, no usage yet, and the current running totals. -/
def initialStream (stats : TokenStats) : StreamState :=
  { rawBuffer := [], fullResponse := [], tokenUsage := none, stats := stats }

/-- JavaScript whitespace recognised by `String.prototype.trim` (restricted
to the ASCII whitespace characters; the claims only involve these). -/
def jsWhitespace (c : Char) : Bool :=
  c = ' ' || c = '\t' || c = '\n' || c = '\r' || c = '\x0b' || c = '\x0c'

/-- JavaScript `input.trim()`: drop whitespace from both ends. -/
def jsTrim (l : List Char) : List Char :=
  ((l.dropWhile jsWhitespace).reverse.dropWhile jsWhitespace).reverse

/-- The `type` field of a message record in the conversation list. -/
inductive MsgType where
  | user
  | assistant
deriving DecidableEq, Repr

/-- A message record of the conversation list in `App.jsx` (the
`timestamp` display string is presentational and omitted). -/
structure Message where
  id : Nat
  type : MsgType
  content : List Char
  tokenUsage : Option Usage
deriving DecidableEq, Repr

/-- The application state of `App.jsx` touched by `handleStream` and
`clearConversations`. -/
structure AppState where
  input : List Char
  conversations : List Message
  loading : Bool
  tokenStats : TokenStats
deriving DecidableEq, Repr

/-- Outcome of the `fetch` to `/api/llm/chat/stream`: either the request
rejects or returns a non-ok status (both reach the `catch` block), or it
succeeds and the reader delivers the given list of decoded chunks. -/
inductive FetchOutcome where
  | failure
  | success (chunks : List (List Char))

/-- The fixed error text installed by the `catch` block of `handleStream`. -/
def errorText : List Char := "[Error] Failed to fetch stream.".toList

/-- Model of `prev.map(msg => msg.id === aiMessageId ? f(msg) : msg)`: patch every
message with the given id. -/
def patchMessage (aiId : Nat) (f : Message → Message) (msgs : List Message) : List Message :=
  msgs.map (fun m => if m.id = aiId then f m else m)

/-- Model of `handleStream` (`App.jsx` lines 22-139).  `now` models `Date.now()` at
the call.  Blank input returns immediately.  Otherwise the user message and
an empty assistant placeholder (id `now + 1`) are appended and the input is
cleared; on fetch failure the placeholder's content is replaced by the fixed
error string, on success the read loop runs and its final visible text and
usage are the placeholder's final content; the `finally` block clears
`loading` in either case. -/
def handleStream (st : AppState) (now : Nat) (outcome : FetchOutcome) : AppState :=
  if jsTrim st.input = [] then st
  else
    let userMessage : Message := { id := now, type := .user, content := st.input, tokenUsage := none }
    let aiMessageId := now + 1
    let aiMessage : Message := { id := aiMessageId, type := .assistant, content := [], tokenUsage := none }
    let convs := st.conversations ++ [userMessage, aiMessage]
    match outcome with
    | .failure =>
      { input := []
        conversations := patchMessage aiMessageId (fun m => { m with content := errorText }) convs
        loading := false
        tokenStats := st.tokenStats }
    | .success chunks =>
      let fin := runStream chunks (initialStream st.tokenStats)
      { input := []
        conversations :=
          patchMessage aiMessageId
            (fun m => { m with content := fin.fullResponse, tokenUsage := fin.tokenUsage }) convs
        loading := false
        tokenStats := fin.stats }

/-- Model of `clearConversations` (`App.jsx` lines 142-145). -/
def clearConversations (st : AppState) : AppState :=
  { st with conversations := [], tokenStats := { total_input := 0, total_output := 0, total_tokens := 0 } }

/-- A `File` object as seen by `FileUpload.jsx`: name, byte size and
browser-reported MIME type. -/
structure JsFile where
  name : List Char
  size : Nat
  type : List Char
deriving DecidableEq, Repr

/-- The list `allowedTypes` from `FileUpload.jsx`. -/
def allowedTypes : List (List Char) :=
  ["application/pdf".toList,
   "application/msword".toList,
   "application/vnd.openxmlformats-officedocument.wordprocessingml.document".toList,
   "text/plain".toList]

/-- The list `allowedExtensions` from `FileUpload.jsx`. -/
def allowedExtensions : List (List Char) :=
  [".pdf".toList, ".doc".toList, ".docx".toList, ".txt".toList]

/-- JavaScript `toLowerCase` (sufficient for ASCII names). -/
def jsToLower (l : List Char) : List Char := l.map Char.toLower

/-- Model of `validateFile` (`FileUpload.jsx` lines 19-34): accept when the MIME
type is allowed or the lower-cased name ends with an allowed extension,
then reject files over 10MB; a thrown error is modelled as `.error` with
the thrown message. -/
def validateFile (f : JsFile) : Except (List Char) Unit :=
  let isValidType := allowedTypes.contains f.type
  let isValidExtension := allowedExtensions.any (fun ext => ext.isSuffixOf (jsToLower f.name))
  if !isValidType && !isValidExtension then
    .error ("Unsupported file type: ".toList ++ f.name ++ ". Please upload PDF, Word or TXT files.".toList)
  else if 10 * 1024 * 1024 < f.size then
    .error ("File too large: ".toList ++ f.name ++ ". File size cannot exceed 10MB.".toList)
  else .ok ()

/-- Outcome of `uploadFileToServer` for one file once it is actually sent:
the upload/process round trip either throws (HTTP error, missing file path,
timeout) with a message, or returns the processed content. -/
inductive ServerOutcome where
  | httpError (msg : List Char)
  | ok (content : List Char)

/-- The record pushed onto `newProcessedFiles` for a successful file
(`uploadFileToServer`'s return value, restricted to the data-carrying
fields). -/
structure ProcessedFile where
  fileName : List Char
  fileSize : Nat
  content : List Char
deriving DecidableEq, Repr

/-- Result of one `processFiles` batch: the records appended to
`uploadedFiles`, the `alert` messages raised, and how many files reached
the network (`uploadFileToServer` was invoked). -/
structure BatchResult where
  uploaded : List ProcessedFile
  alerts : List (List Char)
  networkCalls : Nat
deriving DecidableEq, Repr

/-- Text of the `alert` in the `catch` of the per-file loop. -/
def alertText (name msg : List Char) : List Char :=
  "Failed to upload ".toList ++ name ++ ": ".toList ++ msg

/-- One iteration of the `for (const file of files)` loop in `processFiles`
(`FileUpload.jsx` lines 116-132): validation failure alerts without any
network call; otherwise the file is sent and a server failure alerts while
success yields the processed record. -/
def processOne (f : JsFile) (oracle : ServerOutcome) :
    Option ProcessedFile × Option (List Char) × Nat :=
  match validateFile f with
  | .error msg => (none, some (alertText f.name msg), 0)
  | .ok _ =>
    match oracle with
    | .httpError msg => (none, some (alertText f.name msg), 1)
    | .ok content => (some { fileName := f.name, fileSize := f.size, content := content }, none, 1)

/-- Accumulate one file's outcome into the batch result. -/
def stepFile (acc : BatchResult) (p : JsFile × ServerOutcome) : BatchResult :=
  { uploaded := acc.uploaded ++ (processOne p.1 p.2).1.toList
    alerts := acc.alerts ++ (processOne p.1 p.2).2.1.toList
    networkCalls := acc.networkCalls + (processOne p.1 p.2).2.2 }

/-- Model of `processFiles` (`FileUpload.jsx` lines 112-136) over a batch of files,
each paired with the server's behaviour for it: the sequential loop
accumulating processed records and alerts. -/
def processFiles (batch : List (JsFile × ServerOutcome)) : BatchResult :=
  batch.foldl stepFile { uploaded := [], alerts := [], networkCalls := 0 }

/-- The example response byte stream of the spec's testable-properties
section, delivered by the backend for one exchange. -/
def helloStream : List Char :=
  "Hello[TOKEN_USAGE]\x7b\"input_tokens\":3,\"output_tokens\":5,\"total_tokens\":8\x7d[/TOKEN_USAGE] world".toList

/-- First half of a split of `helloStream` whose boundary falls inside the
opening tag `[TOKEN_USAGE]`. -/
def helloSplitA : List Char := "Hello[TOKEN".toList

/-- Second half of that split. -/
def helloSplitB : List Char :=
  "_USAGE]\x7b\"input_tokens\":3,\"output_tokens\":5,\"total_tokens\":8\x7d[/TOKEN_USAGE] world".toList

/-- A stream containing one complete usage marker whose JSON payload is
malformed. -/
def malformedStream : List Char := "A[TOKEN_USAGE]\x7bbad\x7d[/TOKEN_USAGE]B".toList

/-- The malformed payload captured by the marker regex on
`malformedStream`. -/
def malformedPayload : List Char := lbrace :: ("bad".toList ++ [rbrace])

/-- If the marker regex matches the buffer then the buffer contains the
opening tag, so the flush branch of `processChunk` is disabled. -/
theorem tokenMatch_includes (l p : List Char) (h : tokenMatch l = some p) :
    includesSub l openTag = true := by
  induction l with
  | nil => simp [tokenMatch] at h
  | cons c rest ih =>
    rw [tokenMatch] at h
    rw [includesSub]
    by_cases hp : (openTag ++ [lbrace]).isPrefixOf (c :: rest) = true
    · have hpre : openTag.isPrefixOf (c :: rest) = true := by
        rw [ List.isPrefixOf_iff_prefix] at hp ⊢
        exact (List.prefix_append openTag [lbrace]).trans hp
      simp [hpre]
    · rw [if_neg hp] at h
      simp [ih h]

/-- C1: the claim that every chunking of a stream containing one complete
usage marker yields the same visible text as the unsplit stream is false:
splitting `helloStream` inside the opening tag makes the consumer flush the
partial tag as visible text and then deliver the rest verbatim, so the
split run's visible text differs from the unsplit run's `Hello world`. -/
theorem C1_chunk_split_changes_visible_text :
    helloSplitA ++ helloSplitB = helloStream ∧
    (runStream [helloStream] (initialStream ⟨0, 0, 0⟩)).fullResponse = "Hello world".toList ∧
    (runStream [helloSplitA, helloSplitB] (initialStream ⟨0, 0, 0⟩)).fullResponse ≠
      (runStream [helloStream] (initialStream ⟨0, 0, 0⟩)).fullResponse := by
  refine ⟨by decide, by decide, by decide⟩

/-- C2: the claim that no byte of the usage-marker substring ever reaches
the visible text is false: on the same mid-tag split of `helloStream`, the
final visible text contains both the opening and the closing marker tag
(hence marker bytes were appended to the assistant message). -/
theorem C2_marker_bytes_reach_visible_text :
    helloSplitA ++ helloSplitB = helloStream ∧
    includesSub (runStream [helloSplitA, helloSplitB] (initialStream ⟨0, 0, 0⟩)).fullResponse
      openTag = true ∧
    includesSub (runStream [helloSplitA, helloSplitB] (initialStream ⟨0, 0, 0⟩)).fullResponse
      closeTag = true := by
  refine ⟨by decide, by decide, by decide⟩

/-- C3 counterexample: on the single-chunk stream
`A[TOKEN_USAGE]\x7bbad\x7d[/TOKEN_USAGE]B` the marker JSON fails to parse;
totals and usage are indeed unchanged, but contrary to the claim the
visible text `AB` is NOT delivered: the consumer keeps the whole buffer
(marker included) and the final assistant content is empty. -/
theorem C3_parse_failure_drops_text :
    tokenMatch malformedStream = some malformedPayload ∧
    parseUsage malformedPayload = none ∧
    (runStream [malformedStream] (initialStream ⟨0, 0, 0⟩)).stats = ⟨0, 0, 0⟩ ∧
    (runStream [malformedStream] (initialStream ⟨0, 0, 0⟩)).tokenUsage = none ∧
    (runStream [malformedStream] (initialStream ⟨0, 0, 0⟩)).fullResponse ≠ "AB".toList ∧
    (runStream [malformedStream] (initialStream ⟨0, 0, 0⟩)).fullResponse = [] := by
  refine ⟨by decide, by decide, by decide, by decide, by decide, by decide⟩

/-- C3 amended: when the buffer matches a complete usage marker whose JSON
payload fails to parse, the failure is only logged — token totals, the
usage field and the already delivered visible text are unchanged — but no
further visible text is delivered for this chunk: the whole buffer (marker
included) is retained, so text at or after the malformed marker is withheld
from the assistant message. -/
theorem C3_amended_parse_failure_withholds_text (s : StreamState) (chunk payload : List Char)
    (hm : tokenMatch (s.rawBuffer ++ chunk) = some payload)
    (hp : parseUsage payload = none) :
    processChunk s chunk = { s with rawBuffer := s.rawBuffer ++ chunk } := by
  have hin : includesSub (s.rawBuffer ++ chunk) openTag = true :=
    tokenMatch_includes _ _ hm
  rw [processChunk]
  simp only [hm, hp, hin, Bool.not_true, Bool.and_false, Bool.false_eq_true, if_false]

/-- Witness for the amended C3 at the concrete malformed stream. -/
theorem C3_amended_parse_failure_withholds_text_witness :
    tokenMatch ((initialStream ⟨0, 0, 0⟩).rawBuffer ++ malformedStream) = some malformedPayload ∧
    parseUsage malformedPayload = none ∧
    processChunk (initialStream ⟨0, 0, 0⟩) malformedStream =
      { initialStream ⟨0, 0, 0⟩ with
          rawBuffer := (initialStream ⟨0, 0, 0⟩).rawBuffer ++ malformedStream } :=
  ⟨by decide, by decide,
    C3_amended_parse_failure_withholds_text (initialStream ⟨0, 0, 0⟩) malformedStream
      malformedPayload (by decide) (by decide)⟩

/-- Patching by an id that no message of the list carries leaves the list
unchanged. -/
theorem patchMessage_not_mem (aiId : Nat) (f : Message → Message) (ms : List Message)
    (h : ∀ m ∈ ms, m.id ≠ aiId) : patchMessage aiId f ms = ms := by
  induction ms with
  | nil => rfl
  | cons m rest ih =>
    rw [patchMessage, List.map_cons, if_neg (h m (List.mem_cons_self m rest))]
    have := ih (fun x hx => h x (List.mem_cons_of_mem m hx))
    rw [patchMessage] at this
    rw [this]

/-- C5: for a non-blank prompt whose assistant-placeholder id is fresh (ids
are monotonic timestamps in the spec's data model), a fetch failure or
non-ok HTTP status leaves exactly the new user message and one assistant
message whose content is the fixed error string; prior messages and the
totals are unchanged and loading is false. -/
theorem C5_fetch_failure_fixed_error (st : AppState) (now : Nat)
    (hblank : jsTrim st.input ≠ [])
    (hfresh : ∀ m ∈ st.conversations, m.id ≠ now + 1) :
    handleStream st now .failure =
      { input := []
        conversations := st.conversations ++
          [{ id := now, type := .user, content := st.input, tokenUsage := none },
           { id := now + 1, type := .assistant, content := errorText, tokenUsage := none }]
        loading := false
        tokenStats := st.tokenStats } := by
  simp only [handleStream]
  rw [if_neg hblank]
  simp only [patchMessage, List.map_append]
  rw [← patchMessage]
  rw [patchMessage_not_mem (now + 1) _ st.conversations hfresh]
  simp only [List.map_cons, List.map_nil]
  rw [if_neg (by omega : ¬ now = now + 1)]
  simp

/-- Witness for C5 at a concrete fresh state. -/
theorem C5_fetch_failure_fixed_error_witness :
    jsTrim "hi".toList ≠ [] ∧
    handleStream
        { input := "hi".toList, conversations := [], loading := false,
          tokenStats := ⟨0, 0, 0⟩ } 100 .failure =
      { input := []
        conversations :=
          [{ id := 100, type := .user, content := "hi".toList, tokenUsage := none },
           { id := 101, type := .assistant, content := errorText, tokenUsage := none }]
        loading := false
        tokenStats := ⟨0, 0, 0⟩ } :=
  ⟨by decide,
    C5_fetch_failure_fixed_error
      { input := "hi".toList, conversations := [], loading := false, tokenStats := ⟨0, 0, 0⟩ }
      100 (by decide) (by intro m hm; cases hm)⟩

/-- C7: clearing conversations empties the message list and zeroes all
three running totals, whatever the prior state. -/
theorem C7_clear_resets (st : AppState) :
    (clearConversations st).conversations = [] ∧
    (clearConversations st).tokenStats = ⟨0, 0, 0⟩ :=
  ⟨rfl, rfl⟩

/-- C10: with an empty or all-whitespace prompt, `handleStream` is a
complete no-op — the state (messages, totals, loading, input) is returned
unchanged for every possible fetch outcome, so in particular no message is
appended and the outcome of any network activity is irrelevant. -/
theorem C10_blank_input_noop (st : AppState) (now : Nat) (outcome : FetchOutcome)
    (h : ∀ c ∈ st.input, jsWhitespace c = true) :
    handleStream st now outcome = st := by
  have h1 : st.input.dropWhile jsWhitespace = [] := by
    rw [List.dropWhile_eq_nil_iff]
    exact h
  have ht : jsTrim st.input = [] := by
    rw [jsTrim, h1]
    rfl
  simp only [handleStream]
  rw [if_pos ht]

/-- Witness for C10 at a whitespace-only prompt. -/
theorem C10_blank_input_noop_witness :
    handleStream
        { input := "  ".toList, conversations := [], loading := false,
          tokenStats := ⟨0, 0, 0⟩ } 5 .failure =
      { input := "  ".toList, conversations := [], loading := false,
        tokenStats := ⟨0, 0, 0⟩ } :=
  C10_blank_input_noop _ 5 .failure (by decide)

/-- C4: delivering the spec's example stream in one chunk yields final
assistant text `Hello world`, attaches usage (3, 5, 8) to the message, and
increments the running totals by exactly input 3, output 5, total 8. -/
theorem C4_single_chunk_hello_world (a b c : Nat) :
    (runStream [helloStream] (initialStream ⟨a, b, c⟩)).fullResponse = "Hello world".toList ∧
    (runStream [helloStream] (initialStream ⟨a, b, c⟩)).tokenUsage = some ⟨3, 5, 8⟩ ∧
    (runStream [helloStream] (initialStream ⟨a, b, c⟩)).stats = ⟨a + 3, b + 5, c + 8⟩ := by
  refine ⟨rfl, rfl, rfl⟩

/-- The processed record contributed by one file of a batch, as determined
by that file and its server outcome alone. -/
def fileRecordOf (p : JsFile × ServerOutcome) : Option ProcessedFile :=
  (processOne p.1 p.2).1

/-- The alert contributed by one file of a batch, as determined by that
file and its server outcome alone. -/
def fileAlertOf (p : JsFile × ServerOutcome) : Option (List Char) :=
  (processOne p.1 p.2).2.1

/-- The number of network interactions one file of a batch triggers. -/
def fileCallsOf (p : JsFile × ServerOutcome) : Nat :=
  (processOne p.1 p.2).2.2

/-- Unfolding of `List.filterMap` over a cons, phrased with `Option.toList`. -/
theorem filterMap_cons_toList {α β : Type} (f : α → Option β) (a : α) (l : List α) :
    List.filterMap f (a :: l) = (f a).toList ++ List.filterMap f l := by
  cases h : f a <;> simp [List.filterMap_cons, h]

/-- The sequential batch loop decomposes file by file. -/
theorem processFiles_loop (batch : List (JsFile × ServerOutcome)) (acc : BatchResult) :
    batch.foldl stepFile acc =
      { uploaded := acc.uploaded ++ batch.filterMap fileRecordOf
        alerts := acc.alerts ++ batch.filterMap fileAlertOf
        networkCalls := acc.networkCalls + (batch.map fileCallsOf).sum } := by
  induction batch generalizing acc with
  | nil => simp
  | cons p rest ih =>
    rw [List.foldl_cons, ih, filterMap_cons_toList, filterMap_cons_toList,
      List.map_cons, List.sum_cons]
    simp [stepFile, fileRecordOf, fileAlertOf, fileCallsOf, Nat.add_assoc]

/-- C8: in a batch, each file's contribution to the uploaded-file list and
to the alerts is a function of that file (and its own server outcome)
alone: the loop result is the `filterMap` of the per-file outcome over the
batch.  Hence a validation, upload or process error for one file yields
exactly its own alert and never prevents the remaining files from being
validated, uploaded and processed, and every succeeding file's record is
still appended to the uploaded list. -/
theorem C8_per_file_isolation (batch : List (JsFile × ServerOutcome)) :
    (processFiles batch).uploaded = batch.filterMap fileRecordOf ∧
    (processFiles batch).alerts = batch.filterMap fileAlertOf := by
  rw [processFiles, processFiles_loop]
  simp

/-- A `.exe` file used to refute C6: its extension is not in the allowed
list, but its browser-reported MIME type `text/plain` is allowed. -/
def exeFile : JsFile :=
  { name := "malware.exe".toList, size := 100, type := "text/plain".toList }

/-- C6 counterexample: the claim that every `.exe` file is rejected
regardless of size is false — a `.exe` file whose MIME type is the allowed
`text/plain` passes validation, reaches the network and is uploaded. -/
theorem C6_exe_with_allowed_mime_accepted :
    validateFile exeFile = .ok () ∧
    (processFiles [(exeFile, .ok "text".toList)]).networkCalls = 1 ∧
    (processFiles [(exeFile, .ok "text".toList)]).uploaded ≠ [] := by
  refine ⟨rfl, by decide, by decide⟩

/-- An allowed extension can never be a suffix of a name that ends in
`.exe`: any two suffixes of the same list are comparable, and `.exe` is
comparable with none of the four allowed extensions. -/
theorem exe_not_allowed_extension (l : List Char) (h : ".exe".toList <:+ l) :
    (allowedExtensions.any fun ext => ext.isSuffixOf l) = false := by
  have key : ∀ e : List Char, ¬(e <:+ ".exe".toList ∨ ".exe".toList <:+ e) →
      e.isSuffixOf l = false := by
    intro e hne
    by_contra hc
    rw [Bool.not_eq_false, List.isSuffixOf_iff_suffix] at hc
    exact hne (List.suffix_or_suffix_of_suffix hc h)
  simp only [allowedExtensions, List.any_cons, List.any_nil, Bool.or_false]
  rw [key ".pdf".toList (by decide), key ".doc".toList (by decide),
    key ".docx".toList (by decide), key ".txt".toList (by decide)]
  rfl

/-- C6 amended: every file larger than 10MB is rejected by client-side
validation with a descriptive error and never reaches the network; and a
file whose lower-cased name ends in `.exe` is rejected regardless of its
size exactly when its browser-reported MIME type is not in the allowed
list (an allowed MIME type lets it through, as the counterexample shows). -/
theorem C6_size_cap_and_exe_rejection :
    (∀ (f : JsFile) (o : ServerOutcome), 10 * 1024 * 1024 < f.size →
      (∃ msg, validateFile f = .error msg) ∧
      (processFiles [(f, o)]).networkCalls = 0) ∧
    (∀ (f : JsFile) (o : ServerOutcome), ".exe".toList <:+ jsToLower f.name →
      allowedTypes.contains f.type = false →
      validateFile f =
        .error ("Unsupported file type: ".toList ++ f.name ++
          ". Please upload PDF, Word or TXT files.".toList) ∧
      (processFiles [(f, o)]).networkCalls = 0) := by
  constructor
  · intro f o hsize
    have herr : ∃ msg, validateFile f = .error msg := by
      simp only [validateFile]
      by_cases hty : (!allowedTypes.contains f.type &&
          !allowedExtensions.any fun ext => ext.isSuffixOf (jsToLower f.name)) = true
      · exact ⟨_, by rw [if_pos hty]⟩
      · exact ⟨_, by rw [if_neg hty, if_pos hsize]⟩
    obtain ⟨msg, hmsg⟩ := herr
    refine ⟨⟨msg, hmsg⟩, ?_⟩
    simp [processFiles, stepFile, processOne, hmsg]
  · intro f o hsuf hty
    have hext := exe_not_allowed_extension (jsToLower f.name) hsuf
    have herr : validateFile f =
        .error ("Unsupported file type: ".toList ++ f.name ++
          ". Please upload PDF, Word or TXT files.".toList) := by
      simp only [validateFile, hty, hext, Bool.not_false, Bool.and_self, if_true]
    refine ⟨herr, ?_⟩
    simp [processFiles, stepFile, processOne, herr]

/-- An 11MB text file (for the size half of the amended C6). -/
def bigFile : JsFile :=
  { name := "big.txt".toList, size := 11 * 1024 * 1024, type := "text/plain".toList }

/-- A `.exe` file with a non-allowed MIME type (for the extension half of
the amended C6). -/
def exeBadMime : JsFile :=
  { name := "tool.exe".toList, size := 100, type := "application/x-msdownload".toList }

/-- Witness for the amended C6 at both concrete files. -/
theorem C6_size_cap_and_exe_rejection_witness :
    ((∃ msg, validateFile bigFile = .error msg) ∧
      (processFiles [(bigFile, .ok [])]).networkCalls = 0) ∧
    (validateFile exeBadMime =
        .error ("Unsupported file type: ".toList ++ exeBadMime.name ++
          ". Please upload PDF, Word or TXT files.".toList) ∧
      (processFiles [(exeBadMime, .ok [])]).networkCalls = 0) :=
  ⟨C6_size_cap_and_exe_rejection.1 bigFile (.ok []) (by decide),
   C6_size_cap_and_exe_rejection.2 exeBadMime (.ok []) (by decide) (by decide)⟩

/-- A 10MB-plus-one-byte text file with an allowed MIME type, used to
refute C9 as literally stated. -/
def bigTxtFile : JsFile :=
  { name := "notes.txt".toList, size := 10 * 1024 * 1024 + 1, type := "text/plain".toList }

/-- C9 counterexample: the claim that validation accepts a file whenever
its MIME type is allowed or its name ends with an allowed extension is
false as stated — an oversized file satisfies both disjuncts yet is
rejected by the size check. -/
theorem C9_oversized_allowed_mime_rejected :
    allowedTypes.contains bigTxtFile.type = true ∧
    (allowedExtensions.any fun ext => ext.isSuffixOf (jsToLower bigTxtFile.name)) = true ∧
    validateFile bigTxtFile =
      .error ("File too large: ".toList ++ bigTxtFile.name ++
        ". File size cannot exceed 10MB.".toList) := by
  refine ⟨by decide, by decide, rfl⟩

/-- C9 amended: validation accepts a file exactly when (its MIME type is
in the allowed list OR its lower-cased name ends with an allowed
extension) AND its size is within the 10MB cap; in particular a `.exe`
file of modest size reporting the allowed MIME type `text/plain` passes
validation. -/
theorem C9_mime_or_extension_validation (f : JsFile) :
    validateFile f = .ok () ↔
      ((allowedTypes.contains f.type = true ∨
        (allowedExtensions.any fun ext => ext.isSuffixOf (jsToLower f.name)) = true) ∧
       f.size ≤ 10 * 1024 * 1024) := by
  simp only [validateFile]
  by_cases hty : (!allowedTypes.contains f.type &&
      !allowedExtensions.any fun ext => ext.isSuffixOf (jsToLower f.name)) = true
  · rw [if_pos hty]
    simp only [Bool.and_eq_true, Bool.not_eq_true'] at hty
    constructor
    · intro h
      exact absurd h (by simp)
    · rintro ⟨hor, _⟩
      rcases hor with h | h
      · rw [hty.1] at h
        exact absurd h (by simp)
      · rw [hty.2] at h
        exact absurd h (by simp)
  · rw [if_neg hty]
    by_cases hsz : 10 * 1024 * 1024 < f.size
    · rw [if_pos hsz]
      constructor
      · intro h
        exact absurd h (by simp)
      · rintro ⟨_, hle⟩
        omega
    · rw [if_neg hsz]
      constructor
      · intro _
        refine ⟨?_, by omega⟩
        by_cases h1 : allowedTypes.contains f.type = true
        · exact Or.inl h1
        · by_cases h2 :
              (allowedExtensions.any fun ext => ext.isSuffixOf (jsToLower f.name)) = true
          · exact Or.inr h2
          · refine absurd ?_ hty
            rw [Bool.eq_false_iff.mpr h1, Bool.eq_false_iff.mpr h2]
            rfl
      · intro _
        rfl

/-- A small `.exe` file reporting the allowed MIME type `text/plain`, for
the particular case of the amended C9. -/
def exeTextPlain : JsFile :=
  { name := "report.exe".toList, size := 2048, type := "text/plain".toList }

/-- Witness for the amended C9: the `.exe` file with allowed MIME type and
small size passes validation. -/
theorem C9_mime_or_extension_validation_witness :
    validateFile exeTextPlain = .ok () :=
  (C9_mime_or_extension_validation exeTextPlain).mpr (by decide)

end Frontend
